import Mathlib

/-!
Formal model of the migration approval workflow implemented in
`migrations/tools/data-ops-dashboard.py` (class `MigrationService` together
with `get_db_connection` and the Flask routes that call it).

Modelling conventions:
* Python strings are modelled as `List Char` so that every operation is
  computable by the kernel; the helper `str` converts a Lean string literal
  to that representation.  The Python string methods the source uses
  (`startswith`, `endswith`, `replace`, `strip`, slicing) are embedded as
  the `py...` functions below.
* A database connection that cannot be established, or a query that raises,
  is modelled by the `none` case of an `Option`-typed oracle argument; the
  Python code catches every such exception at the operation boundary.
* Reading a migration file is modelled by a `contents` oracle returning
  `none` for an unreadable file (the `except` branch of
  `get_migration_metadata`) and `some lines` for a readable one.
* The external runner `migrate.sh` invoked through `subprocess.run` is
  modelled by a `runner` oracle mapping a command line and the timeout bound
  passed to `subprocess.run` to an outcome: normal completion with exit code
  and captured streams, a `subprocess.TimeoutExpired`, or another raised
  exception.
* Database tables (`migration_history`, `migration_approvals`) are modelled
  as lists of records; the SQL statements the service issues are embedded as
  Lean functions over those lists.
-/

namespace DataOps

/-- Python strings, modelled as lists of characters. -/
abbrev Str := List Char

/-- Conversion from a Lean string literal to the model representation. -/
def str (s : String) : Str := s.data

/-- Python `s.startswith(p)`. -/
def pyStartsWith (s p : Str) : Bool := p.isPrefixOf s

/-- Python `s.endswith(p)`. -/
def pyEndsWith (s p : Str) : Bool := p.isSuffixOf s

/-- Python `s.strip()`: remove leading and trailing whitespace. -/
def pyStrip (s : Str) : Str :=
  ((s.dropWhile Char.isWhitespace).reverse.dropWhile Char.isWhitespace).reverse

/-- Fuel-driven worker for `pyReplace`.  The fuel starts at the length of
the subject string, which bounds the number of steps for the nonempty
patterns the dashboard uses. -/
def pyReplaceGo (p r : Str) : Nat → Str → Str
  | 0, s => s
  | Nat.succ fuel, s =>
    match s with
    | [] => []
    | c :: rest =>
      if p.isPrefixOf s then r ++ pyReplaceGo p r fuel (s.drop p.length)
      else c :: pyReplaceGo p r fuel rest

/-- Python `s.replace(p, r)`: replace every non-overlapping occurrence of
the nonempty pattern `p`, scanning left to right. -/
def pyReplace (s p r : Str) : Str := pyReplaceGo p r s.length s

/-- Python slicing `s[:-n]`: the string without its last `n` characters. -/
def pyDropRight (s : Str) (n : Nat) : Str := s.take (s.length - n)

/-- Metadata dictionary built by `MigrationService.get_migration_metadata`:
one optional field per recognized comment-header key; a field is `none` when
no matching header line was seen before the scan stopped. -/
structure Metadata where
  description : Option Str := none
  risk_level : Option Str := none
  estimated_duration : Option Str := none
  author : Option Str := none
  created : Option Str := none
deriving Repr, DecidableEq

/-- The line-scanning loop of `get_migration_metadata`: each recognized
comment key updates the corresponding field (value is the line with the key
text removed, then stripped); an unrecognized comment line is skipped; the
scan stops at the first line that does not start with the comment marker. -/
def scanMetadata : List Str → Metadata → Metadata
  | [], m => m
  | line :: rest, m =>
    if pyStartsWith line (str "-- Description:") then
      scanMetadata rest { m with description := some (pyStrip (pyReplace line (str "-- Description:") [])) }
    else if pyStartsWith line (str "-- Risk Level:") then
      scanMetadata rest { m with risk_level := some (pyStrip (pyReplace line (str "-- Risk Level:") [])) }
    else if pyStartsWith line (str "-- Estimated Duration:") then
      scanMetadata rest { m with estimated_duration := some (pyStrip (pyReplace line (str "-- Estimated Duration:") [])) }
    else if pyStartsWith line (str "-- Author:") then
      scanMetadata rest { m with author := some (pyStrip (pyReplace line (str "-- Author:") [])) }
    else if pyStartsWith line (str "-- Created:") then
      scanMetadata rest { m with created := some (pyStrip (pyReplace line (str "-- Created:") [])) }
    else if pyStartsWith line (str "--") then
      scanMetadata rest m
    else
      m

/-- `MigrationService.get_migration_metadata`: an unreadable file (the open
or read raises, caught and logged) yields the empty dictionary; a readable
file is scanned line by line. -/
def get_migration_metadata : Option (List Str) → Metadata
  | none => {}
  | some lines => scanMetadata lines {}

/-- One element of the list returned by
`MigrationService.get_pending_migrations`. -/
structure PendingEntry where
  version : Str
  filename : Str
  description : Str
  risk_level : Str
  estimated_duration : Str
  author : Str
  created : Str
deriving Repr, DecidableEq

/-- The dictionary appended for one pending file: the version is the
filename with the final ".sql" removed, and metadata fields default to the
empty string except the risk level which defaults to "LOW". -/
def mkPendingEntry (filename : Str) (md : Metadata) : PendingEntry :=
  { version := pyDropRight filename 4
    filename := filename
    description := md.description.getD []
    risk_level := md.risk_level.getD (str "LOW")
    estimated_duration := md.estimated_duration.getD []
    author := md.author.getD []
    created := md.created.getD [] }

/-- The body of the listing loop of `get_pending_migrations` for one
directory entry: files without the ".sql" suffix and files whose version is
already applied produce nothing; every other file produces an entry built
from its parsed metadata. -/
def pendFile (applied : List Str) (contents : Str → Option (List Str))
    (filename : Str) : Option PendingEntry :=
  if pyEndsWith filename (str ".sql") then
    if pyDropRight filename 4 ∈ applied then none
    else some (mkPendingEntry filename (get_migration_metadata (contents filename)))
  else none

/-- The Python builtin `sorted` applied to the directory listing: a sort by
the lexicographic order on strings.  Any sorting algorithm produces the same
list because the order is total and antisymmetric, so insertion sort is a
faithful model. -/
def sortNames (names : List Str) : List Str :=
  names.insertionSort (· ≤ ·)

/-- `MigrationService.get_pending_migrations`.  `dbApplied` is the result of
querying the applied versions: `none` when the connection fails or the query
raises (the code then keeps the empty applied set), `some vs` otherwise.
`listing` is the directory listing: `none` when `os.listdir` raises (the
code catches the error and returns the empty list built so far). -/
def get_pending_migrations (dbApplied : Option (List Str))
    (listing : Option (List Str))
    (contents : Str → Option (List Str)) : List PendingEntry :=
  let applied := dbApplied.getD []
  match listing with
  | none => []
  | some names => (sortNames names).filterMap (pendFile applied contents)

/-- One row of the `migration_approvals` table. -/
structure ApprovalRecord where
  migration_version : Str
  approver_role : Str
  approver_name : Str
  approved_at : Nat
  comments : Str
deriving Repr, DecidableEq

/-- The conflict target of the upsert in `add_approval`: the unique key
`(migration_version, approver_role)`. -/
def approvalKeyMatches (v r : Str) (rec : ApprovalRecord) : Bool :=
  decide (rec.migration_version = v) && decide (rec.approver_role = r)

/-- The INSERT ... ON CONFLICT (migration_version, approver_role) DO UPDATE
statement issued by `add_approval`: when a row with the key exists its
approver name, approval timestamp and comments are overwritten, otherwise a
new row is inserted. -/
def upsertApproval (table : List ApprovalRecord) (v r n c : Str) (now : Nat) :
    List ApprovalRecord :=
  if table.any (approvalKeyMatches v r) then
    table.map fun rec =>
      if approvalKeyMatches v r rec then
        { rec with approver_name := n, approved_at := now, comments := c }
      else rec
  else
    table ++ [{ migration_version := v, approver_role := r, approver_name := n,
                approved_at := now, comments := c }]

/-- `MigrationService.add_approval`: when the connection cannot be
established the function returns `False` and performs no write; otherwise it
issues the upsert, commits, and returns `True`.  The first component is the
approvals table after the call, the second the returned boolean. -/
def add_approval (connOk : Bool) (table : List ApprovalRecord)
    (v r n c : Str) (now : Nat) : List ApprovalRecord × Bool :=
  if connOk then (upsertApproval table v r n c now, true) else (table, false)

/-- A sequence of `add_approval` calls (connection flag, version, role,
name, comments, timestamp), applied in order to an approvals table. -/
def applyApprovalCalls (table : List ApprovalRecord) :
    List (Bool × Str × Str × Str × Str × Nat) → List ApprovalRecord
  | [] => table
  | (ok, v, r, n, c, now) :: rest =>
    applyApprovalCalls (add_approval ok table v r n c now).1 rest

/-- One row of the `migration_history` table. -/
structure MigrationRecord where
  version : Str
  description : Str
  risk_level : Str
  status : Str
  applied_at : Option Nat
  execution_time_ms : Option Nat
  applied_by : Str
deriving Repr, DecidableEq

/-- Result row of the summary query of `get_migration_status`: COUNT over
all rows, conditional counts per status, and MAX(applied_at) which is NULL
on an empty table (SQL MAX ignores NULL inputs). -/
structure StatusSummary where
  total : Nat
  applied : Nat
  rolled_back : Nat
  failed : Nat
  last_migration : Option Nat
deriving Repr, DecidableEq

/-- SQL MAX(applied_at) over the history table: NULL values are ignored and
the maximum of the remaining timestamps is returned, NULL if there is none. -/
def maxAppliedAt (hist : List MigrationRecord) : Option Nat :=
  match hist.filterMap MigrationRecord.applied_at with
  | [] => none
  | x :: xs => some (xs.foldl max x)

/-- The summary query of `get_migration_status`. -/
def summaryQuery (hist : List MigrationRecord) : StatusSummary :=
  { total := hist.length
    applied := hist.countP (fun rec => decide (rec.status = str "APPLIED"))
    rolled_back := hist.countP (fun rec => decide (rec.status = str "ROLLED_BACK"))
    failed := hist.countP (fun rec => decide (rec.status = str "FAILED"))
    last_migration := maxAppliedAt hist }

/-- Comparison used to model ORDER BY applied_at DESC in PostgreSQL: larger
timestamps first, NULL timestamps first (DESC places NULLS FIRST by
default). -/
def recentDescLe (a b : MigrationRecord) : Bool :=
  match a.applied_at, b.applied_at with
  | none, _ => true
  | some _, none => false
  | some x, some y => decide (y ≤ x)

/-- The recent-migrations query of `get_migration_status`: ORDER BY
applied_at DESC LIMIT 10. -/
def recentQuery (hist : List MigrationRecord) : List MigrationRecord :=
  (hist.insertionSort (fun a b => recentDescLe a b = true)).take 10

/-- One row of the pending-approvals query result.  The migration version
column is taken from the `migration_approvals` side of the LEFT JOIN, so it
is nullable. -/
structure PendingApprovalRow where
  migration_version : Option Str
  description : Str
  risk_level : Str
  current_approvals : Nat
deriving Repr, DecidableEq

/-- FROM migration_history mh LEFT JOIN migration_approvals ma ON
mh.version = ma.migration_version WHERE mh.status = 'PENDING_APPROVAL':
each pending history row is paired with each of its approvals, or with a
NULL approval row when it has none. -/
def leftJoinPending (hist : List MigrationRecord) (approvals : List ApprovalRecord) :
    List (MigrationRecord × Option ApprovalRecord) :=
  (hist.filter (fun rec => decide (rec.status = str "PENDING_APPROVAL"))).flatMap
    fun mh =>
      match approvals.filter (fun ma => decide (ma.migration_version = mh.version)) with
      | [] => [(mh, none)]
      | ms => ms.map fun ma => (mh, some ma)

/-- The GROUP BY key of the pending-approvals query:
(ma.migration_version, mh.description, mh.risk_level).  The first component
is NULL for join rows without an approval. -/
def joinKey (row : MigrationRecord × Option ApprovalRecord) : Option Str × Str × Str :=
  (row.2.map ApprovalRecord.migration_version, row.1.description, row.1.risk_level)

/-- The pending-approvals query of `get_migration_status`: group the joined
rows by `joinKey` and COUNT(ma.approver_role), which counts only rows whose
approval side is not NULL. -/
def pending_approvals_query (hist : List MigrationRecord)
    (approvals : List ApprovalRecord) : List PendingApprovalRow :=
  let rows := leftJoinPending hist approvals
  ((rows.map joinKey).dedup).map fun k =>
    { migration_version := k.1
      description := k.2.1
      risk_level := k.2.2
      current_approvals :=
        (rows.filter (fun row => decide (joinKey row = k))).countP
          (fun row => row.2.isSome) }

/-- The dictionary returned by `get_migration_status` on success. -/
structure MigrationStatus where
  summary : StatusSummary
  recent_migrations : List MigrationRecord
  pending_approvals : List PendingApprovalRow
deriving Repr, DecidableEq

/-- `MigrationService.get_migration_status`: `None` when the connection
cannot be established or any query raises (both caught and logged),
otherwise the three query results.  The oracle argument carries the table
contents on the success path. -/
def get_migration_status
    (db : Option (List MigrationRecord × List ApprovalRecord)) :
    Option MigrationStatus :=
  db.map fun t =>
    { summary := summaryQuery t.1
      recent_migrations := recentQuery t.1
      pending_approvals := pending_approvals_query t.1 t.2 }

/-- Outcome of the `subprocess.run` call: normal completion with an exit
code and captured stdout and stderr, a `subprocess.TimeoutExpired`, or some
other raised exception carrying a message. -/
inductive RunOutcome where
  | completed (exitCode : Int) (stdout stderr : Str)
  | timedOut
  | raised (message : Str)
deriving Repr, DecidableEq

/-- The dictionary returned by `MigrationService.execute_migration`. -/
structure ExecResult where
  success : Bool
  output : Str
  error : Str
deriving Repr, DecidableEq

/-- The command list built by `execute_migration`:
`[migrate_script, 'migrate', environment]` with `'--force'` appended exactly
when `force` is true. -/
def buildCmd (script environment : Str) (force : Bool) : List Str :=
  [script, str "migrate", environment] ++ if force then [str "--force"] else []

/-- `MigrationService.execute_migration`.  The source builds the command,
makes exactly one `subprocess.run` call with a 300 second timeout, and
returns a result dictionary: success is the exit code being zero with the
captured streams, a timeout yields the fixed timeout message, any other
exception yields its message.  The function contains no database access, so
the history table is returned unchanged.  The returned triple is the result
dictionary, the list of runner invocations made (command and timeout bound),
and the history table after the call.  The `version` argument is accepted
and, as in the source, never used in the command. -/
def execute_migration (runner : List Str → Nat → RunOutcome)
    (script version environment : Str) (force : Bool)
    (history : List MigrationRecord) :
    ExecResult × List (List Str × Nat) × List MigrationRecord :=
  let cmd := buildCmd script environment force
  let res :=
    match runner cmd 300 with
    | RunOutcome.completed code out err =>
        { success := decide (code = 0), output := out, error := err }
    | RunOutcome.timedOut =>
        { success := false, output := [],
          error := str "Migration timed out after 5 minutes" }
    | RunOutcome.raised msg =>
        { success := false, output := [], error := msg }
  (res, [(cmd, 300)], history)

/-- Selection condition of the listing loop, as a Boolean predicate on a
directory entry: it has the ".sql" suffix and its version is not applied. -/
def pendKeep (applied : List Str) (f : Str) : Bool :=
  pyEndsWith f (str ".sql") && !(decide (pyDropRight f 4 ∈ applied))

theorem pendKeep_eq_true {applied : List Str} {f : Str} :
    pendKeep applied f = true
      ↔ pyEndsWith f (str ".sql") = true ∧ pyDropRight f 4 ∉ applied := by
  simp [pendKeep]

theorem pendFile_eq_some {applied : List Str} {contents : Str → Option (List Str)}
    {f : Str} {e : PendingEntry} (h : pendFile applied contents f = some e) :
    e.filename = f ∧ e.version = pyDropRight f 4 := by
  unfold pendFile at h
  split at h
  · split at h
    · exact absurd h (by simp)
    · cases h
      exact ⟨rfl, rfl⟩
  · exact absurd h (by simp)

theorem map_filename_filterMap (applied : List Str)
    (contents : Str → Option (List Str)) (l : List Str) :
    (l.filterMap (pendFile applied contents)).map PendingEntry.filename
      = l.filter (pendKeep applied) := by
  induction l with
  | nil => rfl
  | cons f l ih =>
    by_cases h1 : pyEndsWith f (str ".sql") = true
    · by_cases h2 : pyDropRight f 4 ∈ applied
      · simp [List.filterMap_cons, List.filter_cons, pendFile, pendKeep, h1, h2, ih]
      · simp [List.filterMap_cons, List.filter_cons, pendFile, pendKeep, h1, h2, ih,
          mkPendingEntry]
    · simp [List.filterMap_cons, List.filter_cons, pendFile, pendKeep, h1, ih]

example :
    get_pending_migrations (some []) (some [str "b.sql", str "a.sql", str "notes.txt"]) (fun _ => none)
      = [mkPendingEntry (str "a.sql") {}, mkPendingEntry (str "b.sql") {}] := by decide

example :
    get_pending_migrations (some [str "a"]) (some [str "b.sql", str "a.sql"]) (fun _ => none)
      = [mkPendingEntry (str "b.sql") {}] := by decide

example :
    get_migration_metadata (some [str "-- Risk Level: HIGH", str "SELECT 1;"])
      = { risk_level := some (str "HIGH") } := by decide

/-- C2: for every catalog directory and every set of applied versions,
`get_pending_migrations` returns exactly one entry for each .sql file whose
version (filename without the extension) is not in the applied set (the
entries carry pairwise distinct filenames and an entry for a filename exists
exactly when that file is listed, has the .sql suffix, and its version is
not applied), no entries for versions in the applied set, and the entries
appear in lexicographic filename order. -/
theorem get_pending_migrations_spec (names applied : List Str)
    (contents : Str → Option (List Str)) (hnd : names.Nodup) :
    ((get_pending_migrations (some applied) (some names) contents).map
        PendingEntry.filename).Nodup
    ∧ (∀ f : Str,
        (∃ e ∈ get_pending_migrations (some applied) (some names) contents,
            e.filename = f)
          ↔ f ∈ names ∧ pyEndsWith f (str ".sql") = true ∧ pyDropRight f 4 ∉ applied)
    ∧ ((get_pending_migrations (some applied) (some names) contents).map
        PendingEntry.filename).Sorted (· ≤ ·)
    ∧ (∀ e ∈ get_pending_migrations (some applied) (some names) contents,
        e.version = pyDropRight e.filename 4) := by
  have hres : get_pending_migrations (some applied) (some names) contents
      = (sortNames names).filterMap (pendFile applied contents) := rfl
  have hmap := map_filename_filterMap applied contents (sortNames names)
  have hperm : (sortNames names).Perm names := List.perm_insertionSort _ _
  refine ⟨?_, ?_, ?_, ?_⟩
  · rw [hres, hmap]
    exact List.Nodup.filter _ (hperm.symm.nodup hnd)
  · intro f
    constructor
    · rintro ⟨e, he, rfl⟩
      have hm : e.filename ∈ (sortNames names).filter (pendKeep applied) := by
        rw [← hmap]
        exact List.mem_map_of_mem _ (hres ▸ he)
      rw [List.mem_filter] at hm
      obtain ⟨hsql, happ⟩ := pendKeep_eq_true.mp hm.2
      exact ⟨hperm.mem_iff.mp hm.1, hsql, happ⟩
    · rintro ⟨hf, hsql, happ⟩
      have hm : f ∈ (sortNames names).filter (pendKeep applied) := by
        rw [List.mem_filter]
        exact ⟨hperm.mem_iff.mpr hf, pendKeep_eq_true.mpr ⟨hsql, happ⟩⟩
      rw [← hmap] at hm
      obtain ⟨e, he, hfe⟩ := List.mem_map.mp hm
      exact ⟨e, hres ▸ he, hfe⟩
  · rw [hres, hmap]
    have hs : (sortNames names).Sorted (· ≤ ·) := List.sorted_insertionSort _ _
    exact List.Pairwise.filter _ hs
  · intro e he
    rw [hres] at he
    obtain ⟨f, _, hsome⟩ := List.mem_filterMap.mp he
    obtain ⟨h1, h2⟩ := pendFile_eq_some hsome
    rw [h1, h2]

/-- Witness for C2 at a concrete catalog: listing ["b.sql", "a.sql"] with
version "a" already applied. -/
theorem get_pending_migrations_spec_witness :
    ((get_pending_migrations (some [str "a"]) (some [str "b.sql", str "a.sql"]) (fun _ => none)).map
        PendingEntry.filename).Nodup
    ∧ (∀ f : Str,
        (∃ e ∈ get_pending_migrations (some [str "a"]) (some [str "b.sql", str "a.sql"]) (fun _ => none),
            e.filename = f)
          ↔ f ∈ [str "b.sql", str "a.sql"] ∧ pyEndsWith f (str ".sql") = true
            ∧ pyDropRight f 4 ∉ [str "a"])
    ∧ ((get_pending_migrations (some [str "a"]) (some [str "b.sql", str "a.sql"]) (fun _ => none)).map
        PendingEntry.filename).Sorted (· ≤ ·)
    ∧ (∀ e ∈ get_pending_migrations (some [str "a"]) (some [str "b.sql", str "a.sql"]) (fun _ => none),
        e.version = pyDropRight e.filename 4) :=
  get_pending_migrations_spec [str "b.sql", str "a.sql"] [str "a"] (fun _ => none) (by decide)

theorem approvalKeyMatches_update (v0 r0 v r n c : Str) (now : Nat)
    (rec : ApprovalRecord) :
    approvalKeyMatches v0 r0
        (if approvalKeyMatches v r rec then
          { rec with approver_name := n, approved_at := now, comments := c }
        else rec)
      = approvalKeyMatches v0 r0 rec := by
  split <;> rfl

theorem countP_upsert_map (t : List ApprovalRecord) (v r n c : Str) (now : Nat)
    (v0 r0 : Str) :
    ((t.map fun rec =>
        if approvalKeyMatches v r rec then
          { rec with approver_name := n, approved_at := now, comments := c }
        else rec).countP (approvalKeyMatches v0 r0))
      = t.countP (approvalKeyMatches v0 r0) := by
  rw [List.countP_map]
  refine List.countP_congr fun x _ => ?_
  rw [Function.comp_apply, approvalKeyMatches_update]

theorem upsertApproval_key_unique (t : List ApprovalRecord) (v r n c : Str)
    (now : Nat) (h : ∀ v0 r0, t.countP (approvalKeyMatches v0 r0) ≤ 1)
    (v0 r0 : Str) :
    (upsertApproval t v r n c now).countP (approvalKeyMatches v0 r0) ≤ 1 := by
  unfold upsertApproval
  split
  · rw [countP_upsert_map]
    exact h v0 r0
  · next hany =>
    rw [List.countP_append, List.countP_singleton]
    by_cases hm : approvalKeyMatches v0 r0
        { migration_version := v, approver_role := r, approver_name := n,
          approved_at := now, comments := c } = true
    · have hvr : v = v0 ∧ r = r0 := by simpa [approvalKeyMatches] using hm
      have h0 : t.countP (approvalKeyMatches v0 r0) = 0 := by
        rw [List.countP_eq_zero]
        intro a ha hpa
        exact hany (List.any_eq_true.mpr ⟨a, ha, by rw [hvr.1, hvr.2]; exact hpa⟩)
      rw [h0, if_pos hm]
    · rw [if_neg hm]
      have := h v0 r0
      omega

theorem upsertApproval_countP_self (t : List ApprovalRecord) (v r n c : Str)
    (now : Nat) (h : t.countP (approvalKeyMatches v r) ≤ 1) :
    (upsertApproval t v r n c now).countP (approvalKeyMatches v r) = 1 := by
  unfold upsertApproval
  split
  · next hany =>
    rw [countP_upsert_map]
    obtain ⟨a, ha, hpa⟩ := List.any_eq_true.mp hany
    have hpos : 0 < t.countP (approvalKeyMatches v r) :=
      List.countP_pos.mpr ⟨a, ha, hpa⟩
    omega
  · next hany =>
    have h0 : t.countP (approvalKeyMatches v r) = 0 := by
      rw [List.countP_eq_zero]
      intro a ha hpa
      exact hany (List.any_eq_true.mpr ⟨a, ha, hpa⟩)
    rw [List.countP_append, List.countP_singleton, h0, if_pos (by simp [approvalKeyMatches])]

theorem upsertApproval_mem_key (t : List ApprovalRecord) (v r n c : Str)
    (now : Nat) (rec : ApprovalRecord)
    (hany : t.any (approvalKeyMatches v r) = true)
    (hmem : rec ∈ upsertApproval t v r n c now)
    (hkey : approvalKeyMatches v r rec = true) :
    rec.approver_name = n ∧ rec.approved_at = now ∧ rec.comments = c := by
  unfold upsertApproval at hmem
  rw [if_pos hany] at hmem
  obtain ⟨x, _, rfl⟩ := List.mem_map.mp hmem
  by_cases hxkey : approvalKeyMatches v r x = true
  · rw [if_pos hxkey]
    exact ⟨rfl, rfl, rfl⟩
  · rw [if_neg hxkey] at hkey
    exact absurd hkey hxkey

theorem applyApprovalCalls_key_unique (calls : List (Bool × Str × Str × Str × Str × Nat))
    (t : List ApprovalRecord)
    (h : ∀ v0 r0, t.countP (approvalKeyMatches v0 r0) ≤ 1) (v0 r0 : Str) :
    (applyApprovalCalls t calls).countP (approvalKeyMatches v0 r0) ≤ 1 := by
  induction calls generalizing t with
  | nil => exact h v0 r0
  | cons call rest ih =>
    obtain ⟨ok, v, r, n, c, now⟩ := call
    cases ok with
    | false => exact ih t h
    | true =>
      exact ih (upsertApproval t v r n c now)
        (fun v1 r1 => upsertApproval_key_unique t v r n c now h v1 r1)

/-- C3: `add_approval` is an idempotent upsert keyed by
(version, approver_role): starting from a table satisfying the uniqueness
invariant, any sequence of `add_approval` calls preserves at most one
approval record per (version, role) pair, and calling it twice with the
same (version, role) and different comments leaves exactly one record for
that pair, reflecting the latest approver name, timestamp and comments. -/
theorem add_approval_upsert_idempotent
    (t : List ApprovalRecord) (v r n1 c1 n2 c2 : Str) (time1 time2 : Nat)
    (hkey : ∀ v0 r0, t.countP (approvalKeyMatches v0 r0) ≤ 1) (hc : c1 ≠ c2) :
    (∀ calls : List (Bool × Str × Str × Str × Str × Nat), ∀ v0 r0,
        (applyApprovalCalls t calls).countP (approvalKeyMatches v0 r0) ≤ 1)
    ∧ ((add_approval true (add_approval true t v r n1 c1 time1).1 v r n2 c2 time2).1.countP
          (approvalKeyMatches v r) = 1)
    ∧ (∀ rec ∈ (add_approval true (add_approval true t v r n1 c1 time1).1 v r n2 c2 time2).1,
        approvalKeyMatches v r rec = true →
          rec.approver_name = n2 ∧ rec.approved_at = time2 ∧ rec.comments = c2) := by
  have hstep : (add_approval true t v r n1 c1 time1).1 = upsertApproval t v r n1 c1 time1 := rfl
  have h1 : (upsertApproval t v r n1 c1 time1).countP (approvalKeyMatches v r) = 1 :=
    upsertApproval_countP_self t v r n1 c1 time1 (hkey v r)
  have hany : (upsertApproval t v r n1 c1 time1).any (approvalKeyMatches v r) = true := by
    rw [List.any_eq_true]
    exact List.countP_pos.mp (by rw [h1]; exact Nat.one_pos)
  refine ⟨fun calls v0 r0 => applyApprovalCalls_key_unique calls t hkey v0 r0, ?_, ?_⟩
  · rw [hstep]
    show (upsertApproval (upsertApproval t v r n1 c1 time1) v r n2 c2 time2).countP
        (approvalKeyMatches v r) = 1
    exact upsertApproval_countP_self _ v r n2 c2 time2 (by rw [h1])
  · intro rec hmem hk
    rw [hstep] at hmem
    exact upsertApproval_mem_key _ v r n2 c2 time2 rec hany hmem hk

/-- Witness for C3: two approvals for the same version from the same role
with different comments, starting from the empty approvals table. -/
theorem add_approval_upsert_idempotent_witness :
    (∀ calls : List (Bool × Str × Str × Str × Str × Nat), ∀ v0 r0,
        (applyApprovalCalls [] calls).countP (approvalKeyMatches v0 r0) ≤ 1)
    ∧ ((add_approval true
          (add_approval true [] (str "2024_02_drop_column") (str "data_ops_lead")
            (str "alice") (str "ok") 5).1
          (str "2024_02_drop_column") (str "data_ops_lead") (str "alice") (str "ship it") 9).1.countP
          (approvalKeyMatches (str "2024_02_drop_column") (str "data_ops_lead")) = 1)
    ∧ (∀ rec ∈ (add_approval true
          (add_approval true [] (str "2024_02_drop_column") (str "data_ops_lead")
            (str "alice") (str "ok") 5).1
          (str "2024_02_drop_column") (str "data_ops_lead") (str "alice") (str "ship it") 9).1,
        approvalKeyMatches (str "2024_02_drop_column") (str "data_ops_lead") rec = true →
          rec.approver_name = str "alice" ∧ rec.approved_at = 9 ∧ rec.comments = str "ship it") :=
  add_approval_upsert_idempotent [] (str "2024_02_drop_column") (str "data_ops_lead")
    (str "alice") (str "ok") (str "alice") (str "ship it") 5 9
    (fun v0 r0 => by simp) (by decide)

/-- C6: every call to `execute_migration` invokes the external runner
exactly once with the command `[script, migrate, environment]` and
`--force` appended exactly when `force` is true, passes the 300 second
timeout bound to the subprocess call, and when the process completes the
returned result reports success exactly when the exit code is 0, together
with the captured standard output and error text. -/
theorem execute_migration_command_contract
    (runner : List Str → Nat → RunOutcome) (script version environment : Str)
    (force : Bool) (history : List MigrationRecord) (code : Int) (out err : Str)
    (hrun : runner (buildCmd script environment force) 300
      = RunOutcome.completed code out err) :
    (execute_migration runner script version environment force history).2.1
        = [(buildCmd script environment force, 300)]
    ∧ buildCmd script environment force
        = [script, str "migrate", environment]
            ++ (if force then [str "--force"] else [])
    ∧ ((execute_migration runner script version environment force history).1.success = true
        ↔ code = 0)
    ∧ (execute_migration runner script version environment force history).1.output = out
    ∧ (execute_migration runner script version environment force history).1.error = err := by
  simp only [execute_migration]
  rw [hrun]
  simp [buildCmd]

/-- Witness for C6: a runner completing with exit code 0 on the forced
command for the staging environment. -/
theorem execute_migration_command_contract_witness :
    (execute_migration (fun _ _ => RunOutcome.completed 0 (str "ok") [])
        (str "migrate.sh") (str "v1") (str "staging") true []).2.1
        = [(buildCmd (str "migrate.sh") (str "staging") true, 300)]
    ∧ buildCmd (str "migrate.sh") (str "staging") true
        = [str "migrate.sh", str "migrate", str "staging"]
            ++ (if true then [str "--force"] else [])
    ∧ ((execute_migration (fun _ _ => RunOutcome.completed 0 (str "ok") [])
        (str "migrate.sh") (str "v1") (str "staging") true []).1.success = true
        ↔ (0 : Int) = 0)
    ∧ (execute_migration (fun _ _ => RunOutcome.completed 0 (str "ok") [])
        (str "migrate.sh") (str "v1") (str "staging") true []).1.output = str "ok"
    ∧ (execute_migration (fun _ _ => RunOutcome.completed 0 (str "ok") [])
        (str "migrate.sh") (str "v1") (str "staging") true []).1.error = [] :=
  execute_migration_command_contract _ (str "migrate.sh") (str "v1") (str "staging")
    true [] 0 (str "ok") [] rfl

/-- C1: the claim fails on the code.  With `force = false` and an approval
state that does not permit execution (no approvals exist anywhere for the
HIGH-risk migration), `execute_migration` still performs exactly one
invocation of the external runner and returns the runner result; no
InsufficientApprovals failure exists in the function.  Only the History
Store part holds, vacuously, because the function never touches the store.
The route handler checks just the approve_all permission of the caller and
then calls this function unconditionally. -/
theorem execute_without_approval_invokes_runner :
    (execute_migration (fun _ _ => RunOutcome.completed 0 (str "done") [])
        (str "migrate.sh") (str "2024_02_drop_column") (str "staging") false []).2.1.length = 1
    ∧ (execute_migration (fun _ _ => RunOutcome.completed 0 (str "done") [])
        (str "migrate.sh") (str "2024_02_drop_column") (str "staging") false []).2.2 = []
    ∧ (execute_migration (fun _ _ => RunOutcome.completed 0 (str "done") [])
        (str "migrate.sh") (str "2024_02_drop_column") (str "staging") false []).1.success = true :=
  ⟨rfl, rfl, by decide⟩

/-- C4: no isExecutionAllowed gate exists in the code.  For the HIGH-risk
migration 2024_02_drop_column (its header parses to risk level HIGH) with an
empty approvals table (zero approvals for every role), `execute_migration`
with `force = false` still invokes the runner once and reports success when
the runner exits 0, instead of returning false with reason
InsufficientApprovals. -/
theorem high_risk_zero_approvals_still_executes :
    (get_migration_metadata (some [str "-- Risk Level: HIGH",
        str "ALTER TABLE users DROP COLUMN email;"])).risk_level = some (str "HIGH")
    ∧ (∀ role : Str, ([] : List ApprovalRecord).countP
        (approvalKeyMatches (str "2024_02_drop_column") role) = 0)
    ∧ (execute_migration (fun _ _ => RunOutcome.completed 0 [] [])
        (str "migrate.sh") (str "2024_02_drop_column") (str "staging") false []).1.success = true
    ∧ (execute_migration (fun _ _ => RunOutcome.completed 0 [] [])
        (str "migrate.sh") (str "2024_02_drop_column") (str "staging") false []).2.1.length = 1 :=
  ⟨by decide, fun _ => rfl, by decide, rfl⟩

/-- C5 counterexample: an execution attempt that reaches the runner and
succeeds (exit code 0) leaves the History Store exactly as it was, here
still empty, so no APPLIED MigrationRecord is written although the claim
requires exactly one. -/
theorem execute_success_writes_no_record :
    (execute_migration (fun _ _ => RunOutcome.completed 0 (str "applied") [])
        (str "migrate.sh") (str "20240101_create_users") (str "staging") false []).2.2 = []
    ∧ (execute_migration (fun _ _ => RunOutcome.completed 0 (str "applied") [])
        (str "migrate.sh") (str "20240101_create_users") (str "staging") false []).1.success
        = true :=
  ⟨rfl, by decide⟩

/-- C5 amended: `execute_migration` itself writes no MigrationRecord: the
History Store passes through unchanged on every path; a timed-out run
yields a failed structured result with the fixed message
"Migration timed out after 5 minutes" (again without touching the store);
any record transition is left to the external runner. -/
theorem execute_migration_store_passthrough
    (runner : List Str → Nat → RunOutcome) (script version environment : Str)
    (force : Bool) (history : List MigrationRecord) :
    (execute_migration runner script version environment force history).2.2 = history
    ∧ (execute_migration (fun _ _ => RunOutcome.timedOut)
        script version environment force history).1
      = { success := false, output := [],
          error := str "Migration timed out after 5 minutes" }
    ∧ (execute_migration (fun _ _ => RunOutcome.timedOut)
        script version environment force history).2.2 = history :=
  ⟨rfl, rfl, rfl⟩

/-- C7 counterexample: a catalog with the single unreadable file bad.sql
(the contents oracle reports a read failure) still lists that file as
pending with default metadata; the claim says an unreadable file does not
appear in the returned pending list. -/
theorem unreadable_file_listed :
    get_pending_migrations (some []) (some [str "bad.sql"]) (fun _ => none)
      = [{ version := str "bad", filename := str "bad.sql", description := [],
           risk_level := str "LOW", estimated_duration := [], author := [],
           created := [] }] := by decide

/-- C7 amended: a malformed or unreadable migration file does not make the
catalog scan fatal — the read failure is caught and logged inside
`get_migration_metadata` — but the file is not skipped: it still appears in
the returned pending list, carrying default metadata (empty fields, risk
level LOW). -/
theorem unreadable_file_included_with_defaults
    (names applied : List Str) (contents : Str → Option (List Str)) (f : Str)
    (hmem : f ∈ names) (hsql : pyEndsWith f (str ".sql") = true)
    (happ : pyDropRight f 4 ∉ applied) (hread : contents f = none) :
    ∃ e ∈ get_pending_migrations (some applied) (some names) contents,
      e.filename = f ∧ e.version = pyDropRight f 4 ∧ e.description = []
      ∧ e.risk_level = str "LOW" ∧ e.estimated_duration = [] ∧ e.author = []
      ∧ e.created = [] := by
  refine ⟨mkPendingEntry f {}, ?_, rfl, rfl, rfl, rfl, rfl, rfl, rfl⟩
  show mkPendingEntry f {} ∈ (sortNames names).filterMap (pendFile applied contents)
  refine List.mem_filterMap.mpr ⟨f, (List.perm_insertionSort _ _).mem_iff.mpr hmem, ?_⟩
  unfold pendFile
  rw [hread, if_pos hsql, if_neg happ]
  rfl

/-- Witness for the amended C7 at a concrete unreadable catalog file. -/
theorem unreadable_file_included_with_defaults_witness :
    ∃ e ∈ get_pending_migrations (some []) (some [str "broken.sql"]) (fun _ => none),
      e.filename = str "broken.sql" ∧ e.version = pyDropRight (str "broken.sql") 4
      ∧ e.description = [] ∧ e.risk_level = str "LOW" ∧ e.estimated_duration = []
      ∧ e.author = [] ∧ e.created = [] :=
  unreadable_file_included_with_defaults [str "broken.sql"] [] (fun _ => none)
    (str "broken.sql") (List.mem_singleton.mpr rfl) (by decide) (by simp) rfl

/-- C8: refutation at a PENDING_APPROVAL record with zero approvals: the
pending-approvals result row carries migration_version NULL (`none`) with
count 0 instead of the record version 2024_02_drop_column, because the
query selects and groups by ma.migration_version, the nullable side of the
LEFT JOIN, rather than mh.version. -/
theorem pending_approvals_null_version :
    get_migration_status
        (some ([⟨str "2024_02_drop_column", str "drop a column", str "HIGH",
            str "PENDING_APPROVAL", none, none, []⟩], []))
      = some ⟨⟨1, 0, 0, 0, none⟩,
          [⟨str "2024_02_drop_column", str "drop a column", str "HIGH",
            str "PENDING_APPROVAL", none, none, []⟩],
          [⟨none, str "drop a column", str "HIGH", 0⟩]⟩ := by decide

/-- C9: each operation converts a History Store connection failure or an
external runner fault into a structured result at its boundary: the status
query returns the distinguished None, add_approval returns False leaving
the table unchanged, and execute_migration maps a raised runner exception
to a failure dictionary carrying the message.  Every embedded operation is
a total function, mirroring the try/except blocks that keep raw exceptions
from propagating to callers. -/
theorem operation_boundary_structured :
    get_migration_status none = none
    ∧ (∀ (t : List ApprovalRecord) (v r n c : Str) (now : Nat),
        add_approval false t v r n c now = (t, false))
    ∧ (∀ (script version environment : Str) (force : Bool)
        (history : List MigrationRecord) (msg : Str),
        (execute_migration (fun _ _ => RunOutcome.raised msg)
            script version environment force history).1
          = { success := false, output := [], error := msg }) :=
  ⟨rfl, fun _ _ _ _ _ _ => rfl, fun _ _ _ _ _ _ => rfl⟩

/-- C10: when the History Store connection cannot be established,
`get_pending_migrations` returns no unavailable indication: the result is
exactly the result for an environment with an empty applied set, and every
listed .sql file appears as pending. -/
theorem pending_migrations_connection_failure
    (names : List Str) (contents : Str → Option (List Str)) :
    get_pending_migrations none (some names) contents
      = get_pending_migrations (some []) (some names) contents
    ∧ (∀ f ∈ names, pyEndsWith f (str ".sql") = true →
        ∃ e ∈ get_pending_migrations none (some names) contents, e.filename = f) := by
  refine ⟨rfl, fun f hf hsql => ?_⟩
  have hm : f ∈ (sortNames names).filter (pendKeep []) := by
    rw [List.mem_filter]
    exact ⟨(List.perm_insertionSort _ _).mem_iff.mpr hf,
      pendKeep_eq_true.mpr ⟨hsql, by simp⟩⟩
  rw [← map_filename_filterMap [] contents (sortNames names)] at hm
  obtain ⟨e, he, hfe⟩ := List.mem_map.mp hm
  exact ⟨e, he, hfe⟩

/-- Witness for C10 at a concrete one-file catalog. -/
theorem pending_migrations_connection_failure_witness :
    get_pending_migrations none (some [str "a.sql"]) (fun _ => none)
      = get_pending_migrations (some []) (some [str "a.sql"]) (fun _ => none)
    ∧ ∃ e ∈ get_pending_migrations none (some [str "a.sql"]) (fun _ => none),
        e.filename = str "a.sql" :=
  ⟨(pending_migrations_connection_failure [str "a.sql"] (fun _ => none)).1,
   (pending_migrations_connection_failure [str "a.sql"] (fun _ => none)).2
     (str "a.sql") (List.mem_singleton.mpr rfl) (by decide)⟩

end DataOps
